import Mathlib

/-
  Verification development for the LANDrop repository.

  The definitions below are a shallow embedding of the C++ sources:
    * src/landrop-plus/network/receiver.cpp   (Receiver)
    * src/landrop/network/receiver.cpp        (original Receiver)
    * src/landrop-plus/network/sender.cpp     (Sender)
    * src/landrop-plus/services/filetransfermanager.cpp (FileTransferManager)
    * src/landrop-plus/services/broadcastdiscoveryservice.cpp (BroadcastDiscoveryService)

  Byte strings (QByteArray / QString) are modelled as List Char; machine
  integers (qint64) as Int with the explicit range cut-off that
  QByteArray::toLongLong performs on overflow (it returns 0 on failure,
  it never wraps).  QMap is modelled as an association list with
  replace-or-append insertion; lookups never depend on iteration order
  in any claim below.
-/

namespace LanDrop

/-! ### Association-list operations, modelling QMap -/

section AssocOps

variable {κ : Type} {α : Type} [DecidableEq κ]

/-- Lookup of a key, as QMap::value / QMap::contains. -/
def lookupA : κ → List (κ × α) → Option α
  | _, [] => none
  | k, (k', v) :: rest => if k = k' then some v else lookupA k rest

/-- Insertion that replaces an existing binding, as QMap::insert and
QMap::operator[] assignment. -/
def setA : κ → α → List (κ × α) → List (κ × α)
  | k, v, [] => [(k, v)]
  | k, v, (k', v') :: rest => if k = k' then (k, v) :: rest else (k', v') :: setA k v rest

/-- Removal of a key, as QMap::remove. -/
def removeA : κ → List (κ × α) → List (κ × α)
  | _, [] => []
  | k, (k', v') :: rest => if k = k' then removeA k rest else (k', v') :: removeA k rest

theorem lookupA_setA_self (k : κ) (v : α) (l : List (κ × α)) :
    lookupA k (setA k v l) = some v := by
  induction l with
  | nil => simp [setA, lookupA]
  | cons hd tl ih =>
      by_cases h : k = hd.1
      · simp [setA, lookupA, h]
      · simp [setA, lookupA, h, ih]

theorem lookupA_setA_other (k k' : κ) (v : α) (l : List (κ × α)) (h : k ≠ k') :
    lookupA k (setA k' v l) = lookupA k l := by
  induction l with
  | nil => simp [setA, lookupA, h]
  | cons hd tl ih =>
      by_cases h2 : k' = hd.1
      · subst h2
        simp [setA, lookupA, h]
      · by_cases h3 : k = hd.1
        · simp [setA, lookupA, h2, h3]
        · simp [setA, lookupA, h2, h3, ih]

theorem lookupA_removeA_self (k : κ) (l : List (κ × α)) :
    lookupA k (removeA k l) = none := by
  induction l with
  | nil => simp [removeA, lookupA]
  | cons hd tl ih =>
      obtain ⟨k', v'⟩ := hd
      by_cases h : k = k'
      · subst h
        simp [removeA, ih]
      · simp [removeA, lookupA, h, ih]

theorem lookupA_removeA_other (k k' : κ) (l : List (κ × α)) (h : k ≠ k') :
    lookupA k (removeA k' l) = lookupA k l := by
  induction l with
  | nil => simp [removeA, lookupA]
  | cons hd tl ih =>
      by_cases h2 : k' = hd.1
      · subst h2
        simp [removeA, lookupA, h, ih]
      · by_cases h3 : k = hd.1
        · simp [removeA, lookupA, h2, h3]
        · simp [removeA, lookupA, h2, h3, ih]

end AssocOps

/-! ### Byte-string helpers, modelling the QByteArray / QString operations used -/

/-- ASCII whitespace as removed by QByteArray::trimmed. -/
def isAsciiSpace (c : Char) : Bool :=
  c = ' ' || c = '\t' || c = '\n' || c = '\x0B' || c = '\x0C' || c = '\r'

/-- Model of QByteArray::trimmed: strip ASCII whitespace from both ends. -/
def trimAscii (l : List Char) : List Char :=
  ((l.dropWhile isAsciiSpace).reverse.dropWhile isAsciiSpace).reverse

/-- Model of QByteArray::contains for the byte of the protocol separator. -/
def hasBar (l : List Char) : Bool := l.any (fun c => c = '|')

/-- Model of QByteArray::split on the protocol separator: always returns at
least one part, empty parts included. -/
def splitBar : List Char → List (List Char)
  | [] => [[]]
  | c :: cs =>
      if c = '|' then [] :: splitBar cs
      else
        match splitBar cs with
        | [] => [[c]]
        | p :: ps => (c :: p) :: ps

theorem splitBar_ne_nil (l : List Char) : splitBar l ≠ [] := by
  induction l with
  | nil => simp [splitBar]
  | cons c cs ih =>
      by_cases h : c = '|'
      · simp [splitBar, h]
      · simp only [splitBar, h, if_false]
        match hs : splitBar cs with
        | [] => exact absurd hs ih
        | p :: ps => simp

theorem hasBar_iff_two_parts (l : List Char) :
    hasBar l = true ↔ 2 ≤ (splitBar l).length := by
  induction l with
  | nil => simp [hasBar, splitBar]
  | cons c cs ih =>
      by_cases h : c = '|'
      · constructor
        · intro _
          have := splitBar_ne_nil cs
          simp [splitBar, h]
          cases hs : splitBar cs with
          | nil => exact absurd hs this
          | cons p ps => simp
        · intro _
          simp [hasBar, h]
      · simp only [splitBar, h, if_false]
        cases hs : splitBar cs with
        | nil => exact absurd hs (splitBar_ne_nil cs)
        | cons p ps =>
            simp only [hasBar, List.any_cons, decide_eq_true_eq, h, false_or] at *
            rw [hs] at ih
            simpa [hasBar] using ih

/-- Model of List startsWith for a fixed pattern, as QString::startsWith. -/
def startsWith : List Char → List Char → Bool
  | [], _ => true
  | _ :: _, [] => false
  | p :: ps, c :: cs => p = c && startsWith ps cs

/-- Decimal digit accumulator for the integer parsers. -/
def parseDigitsAux : List Char → Nat → Option Nat
  | [], acc => some acc
  | c :: cs, acc =>
      if c.isDigit then parseDigitsAux cs (acc * 10 + (c.toNat - 48)) else none

/-- Parse a non-empty all-digit string. -/
def parseDigits : List Char → Option Nat
  | [] => none
  | l => parseDigitsAux l 0

/-- Model of QByteArray::toLongLong without the defaulting: leading and
trailing ASCII whitespace is ignored, an optional sign is allowed, the rest
must be decimal digits fitting in a signed 64-bit integer, otherwise the
conversion fails. -/
def parseLL (l : List Char) : Option Int :=
  let t := trimAscii l
  match t with
  | '-' :: rest =>
      (parseDigits rest).bind fun n =>
        if n ≤ 9223372036854775808 then some (-(n : Int)) else none
  | '+' :: rest =>
      (parseDigits rest).bind fun n =>
        if n ≤ 9223372036854775807 then some (n : Int) else none
  | _ =>
      (parseDigits t).bind fun n =>
        if n ≤ 9223372036854775807 then some (n : Int) else none

/-- Model of QByteArray::toLongLong: 0 when the conversion fails. -/
def toLongLongChars (l : List Char) : Int := (parseLL l).getD 0

/-- Model of QString::toUShort: 0 when the conversion fails or overflows. -/
def toUShortChars (l : List Char) : Nat :=
  match parseLL l with
  | some n => if 0 ≤ n ∧ n ≤ 65535 then n.toNat else 0
  | none => 0

/-- Model of QFileInfo::fileName: the component after the last separator. -/
def baseName (l : List Char) : List Char :=
  (l.reverse.takeWhile (fun c => !(c = '/' || c = '\\'))).reverse

/-- Model of QIODevice::readLine on the bytes currently available: everything
up to and including the first newline, or all available bytes when no newline
is buffered. Returns the line and the remaining buffered bytes. -/
def readLineSplit : List Char → List Char × List Char
  | [] => ([], [])
  | c :: cs =>
      if c = '\n' then ([c], cs)
      else
        let r := readLineSplit cs
        (c :: r.1, r.2)

/-! ### Transfer status, from src/landrop-plus/core/transferstatus.h -/

/-- Enum TransferStatus from transferstatus.h. -/
inductive TransferStatus where
  | WAITING
  | IN_PROGRESS
  | FINISHED
  | CANCELLED
  | ERROR
  deriving DecidableEq, Repr

/-! ### Receiver (src/landrop-plus/network/receiver.cpp)

The per-socket protocol state.  A socket is identified by a Nat.  The
attached destination file handle is modelled as the list of bytes written
to it so far; `none` means no handle has been attached yet (the transfer
has not been accepted).  Disk writes are modelled as succeeding (the
`written == -1` error branch of onReadyRead is unreachable in this model). -/

/-- Struct FileDefinition of receiver.h: one pending inbound transfer. -/
structure PendingFile where
  name : List Char
  size : Int
  totalReceived : Int
  file : Option (List Char)
  deriving DecidableEq, Repr

/-- Receiver state: the pendingFiles map plus the unread bytes buffered in
each client socket (QTcpSocket's internal read buffer). -/
structure RecvState where
  pendingFiles : List (Nat × PendingFile)
  buffers : List (Nat × List Char)
  deriving DecidableEq, Repr

/-- Signals emitted by the Receiver. The numeric argument of
transferProgressUpdated is computed with float arithmetic in the source and
is not modelled; no claim depends on its value. -/
inductive RecvEvent where
  | requested (name : List Char) (size : Int) (sock : Nat)
  | progressUpd (name : List Char)
  | statusUpd (name : List Char) (status : TransferStatus)
  | receivedOk (name : List Char)
  deriving DecidableEq, Repr

/-- Protocol tag of a download request line. -/
def dlTag : List Char := "DOWNLOAD_REQUEST|".toList

/-- Outcome of the metadata phase of Receiver::onReadyRead. -/
inductive MetaAction where
  | disconnect
  | download (relativePath fileName : List Char) (clientPort : Nat)
  | accept (name : List Char) (size : Int)
  deriving DecidableEq, Repr

/-- Metadata parsing of Receiver::onReadyRead (landrop-plus), applied to the
line returned by readLine: trim, reject empty or separator-free lines,
divert download requests, then parse name and declared size, rejecting an
empty name or a negative size. -/
def handleMetadataLine (rawLine : List Char) : MetaAction :=
  let line := trimAscii rawLine
  if line = [] ∨ hasBar line = false then .disconnect
  else if startsWith dlTag line then
    let parts := splitBar line
    if 4 ≤ parts.length then
      .download (parts.getD 1 []) (parts.getD 2 []) (toUShortChars (parts.getD 3 []))
    else .disconnect
  else
    let data := splitBar line
    if data.length < 2 then .disconnect
    else
      let fileName := data.getD 0 []
      let fileSize := toLongLongChars (data.getD 1 [])
      if fileName = [] ∨ fileSize < 0 then .disconnect
      else .accept fileName fileSize

/-- Receiver::onReadyRead for one socket. Returns the new state, the emitted
signals, and whether the Receiver initiated a disconnect of this socket.
In the payload phase, when no file handle is attached the handler returns
before readAll, so the socket buffer is left untouched. -/
def onReadyRead (sock : Nat) (st : RecvState) : RecvState × List RecvEvent × Bool :=
  let buf := (lookupA sock st.buffers).getD []
  match lookupA sock st.pendingFiles with
  | none =>
      let lr := readLineSplit buf
      let st1 : RecvState := { st with buffers := setA sock lr.2 st.buffers }
      match handleMetadataLine lr.1 with
      | .disconnect => (st1, [], true)
      | .download _ _ _ =>
          -- handleDownloadRequest spawns a detached Sender (no Receiver
          -- state change, no Receiver signal), then the socket is dropped.
          (st1, [], true)
      | .accept name size =>
          ({ st1 with
              pendingFiles :=
                setA sock { name := name, size := size, totalReceived := 0, file := none }
                  st.pendingFiles },
            [.requested name size sock], false)
  | some e =>
      match e.file with
      | none => (st, [], false)
      | some content =>
          if buf = [] then (st, [], false)
          else
            let e' : PendingFile :=
              { e with file := some (content ++ buf),
                       totalReceived := e.totalReceived + buf.length }
            ({ st with pendingFiles := setA sock e' st.pendingFiles,
                       buffers := setA sock [] st.buffers },
              [.progressUpd e.name], decide (e.size ≤ e'.totalReceived))

/-- Delivery of bytes on a socket: they are appended to the socket's read
buffer before readyRead is handled. -/
def dataArrived (sock : Nat) (bytes : List Char) (st : RecvState) : RecvState :=
  { st with buffers := setA sock ((lookupA sock st.buffers).getD [] ++ bytes) st.buffers }

/-- Receiver::setFile: attach a freshly opened (empty) destination file to an
existing pending entry; with invalid arguments nothing happens. -/
def setFile (sock : Nat) (st : RecvState) : RecvState :=
  match lookupA sock st.pendingFiles with
  | some e =>
      { st with pendingFiles := setA sock { e with file := some [] } st.pendingFiles }
  | none => st

/-- Signals emitted by Receiver::onDisconnected for one pending entry:
CANCELLED when fewer bytes than declared were received, otherwise
fileReceivedSuccessfully plus FINISHED. -/
def disconnectEvents (e : PendingFile) : List RecvEvent :=
  if e.totalReceived < e.size then [.statusUpd e.name .CANCELLED]
  else [.receivedOk (baseName e.name), .statusUpd e.name .FINISHED]

/-- Receiver::onDisconnected: close and drop the file handle, emit the final
status, and remove the per-socket pending entry (closing the handle is
implicit in dropping the entry, whose file field owns the handle). -/
def onDisconnected (sock : Nat) (st : RecvState) : RecvState × List RecvEvent :=
  match lookupA sock st.pendingFiles with
  | some e =>
      ({ pendingFiles := removeA sock st.pendingFiles,
         buffers := removeA sock st.buffers },
        disconnectEvents e)
  | none => (st, [])

/-! ### Original Receiver (src/landrop/network/receiver.cpp)

Its phase-2 handler reads all available bytes unconditionally, counts them
into totalRecieved (spelling as in the source), and writes them only when a
file handle is attached and open; otherwise the bytes are discarded. -/

/-- Pending entry of the original landrop Receiver. -/
structure LPendingFile where
  name : List Char
  size : Int
  totalRecieved : Int
  file : Option (List Char)
  deriving DecidableEq, Repr

/-- Phase 2 of the original Receiver::onReadyRead on the buffered bytes. -/
def landropPayloadStep (e : LPendingFile) (buf : List Char) : LPendingFile × List RecvEvent :=
  let e' : LPendingFile :=
    { e with totalRecieved := e.totalRecieved + buf.length,
             file := match e.file with
                     | some content => some (content ++ buf)
                     | none => none }
  (e', [.progressUpd e.name])

/-! ### Sender streaming loop (src/landrop-plus/network/sender.cpp)

After the receiver answers OK, Sender::onReadyRead reads a first chunk of
at most bufferSize bytes and writes it without emitting any progress.  Each
subsequent bytesWritten notification reads the next chunk, adds its size to
bytesSent, emits progressUpdated(bytesSent * 100 / fileSize) and writes the
chunk; once the file is at its end it emits transferFinished instead.  The
loop is modelled with a fuel argument: each iteration sends at least one
byte, so fuel = fileSize always suffices.  An empty file trips the
`write(chunk) < 1` error branch before the loop, and a zero bufferSize
would stall the real loop, so the theorems assume both positive. -/

/-- Streaming loop of Sender::onReadyRead, recorded as the list of
(bytesSent, emitted progress) pairs; the buffer size is bufp + 1. -/
def senderLoopFuel (size bufp : Nat) : Nat → Nat → List (Nat × Nat)
  | 0, _ => []
  | fuel + 1, sent =>
      if sent < size then
        let s' := sent + min (bufp + 1) (size - sent)
        (s', s' * 100 / size) :: senderLoopFuel size bufp fuel s'
      else []

/-- Final value of bytesSent when transferFinished is emitted. -/
def senderFinalFuel (size bufp : Nat) : Nat → Nat → Nat
  | 0, sent => sent
  | fuel + 1, sent =>
      if sent < size then senderFinalFuel size bufp fuel (sent + min (bufp + 1) (size - sent))
      else sent

/-- Trace of one accepted upload of a file of fileSize bytes with the
configured buffer size: the first chunk of min bufferSize fileSize bytes is
sent silently, then the loop runs. -/
def senderTrace (fileSize bufferSize : Nat) : List (Nat × Nat) :=
  senderLoopFuel fileSize (bufferSize - 1) fileSize (min bufferSize fileSize)

/-- Sequence of progressUpdated values emitted during the upload. -/
def senderProgresses (fileSize bufferSize : Nat) : List Nat :=
  (senderTrace fileSize bufferSize).map Prod.snd

/-- Value of bytesSent at the moment transferFinished is emitted. -/
def senderFinalBytes (fileSize bufferSize : Nat) : Nat :=
  senderFinalFuel fileSize (bufferSize - 1) fileSize (min bufferSize fileSize)

/-! ### FileTransferManager (src/landrop-plus/services/filetransfermanager.cpp) -/

/-- Outbound session record, struct TransferSession of filetransfermanager.h. -/
structure TransferSession where
  id : Nat
  fileName : List Char
  recipientIP : List Char
  status : TransferStatus
  progress : Int
  deriving DecidableEq, Repr

/-- Recipient as used by sendFilesToUsers (the fields of LANDropUser it reads). -/
structure LANDropUserM where
  ipAddress : List Char
  transferPort : Nat
  deriving DecidableEq, Repr

/-- Manager state. Sender objects are identified by Nats; sessions and the
batching state follow the members of FileTransferManager. -/
structure MgrState where
  sessions : List (Nat × TransferSession)
  nextSessionId : Nat
  senderToSession : List (Nat × Nat)
  receivedFileToSession : List (List Char × Nat)
  pendingBatchFiles : List (List Char × Int)
  pendingBatchSockets : List (List Char × Nat)
  batchTimerActive : Bool
  deriving DecidableEq, Repr

/-- Signals emitted by the manager, plus the observable start of a Sender
connection (Sender::sendFile reaching connectToHost). -/
inductive MgrEvent where
  | sessionCreated (id : Nat) (name : List Char) (ip : List Char)
  | statusChanged (id : Nat) (status : TransferStatus)
  | progressChanged (id : Nat) (progress : Int)
  | batchRequested (files : List (List Char × Int)) (socks : List (List Char × Nat))
  | connectAttempt (ip : List Char) (port : Nat)
  deriving DecidableEq, Repr

/-- Manager state right after construction. -/
def initMgrState : MgrState :=
  { sessions := [], nextSessionId := 1, senderToSession := [],
    receivedFileToSession := [], pendingBatchFiles := [],
    pendingBatchSockets := [], batchTimerActive := false }

/-- FileTransferManager::createTransferSession. -/
def createTransferSession (st : MgrState) (fileName ip : List Char) :
    Nat × MgrState × List MgrEvent :=
  let id := st.nextSessionId
  let s : TransferSession :=
    { id := id, fileName := fileName, recipientIP := ip,
      status := .WAITING, progress := 0 }
  (id,
    { st with nextSessionId := id + 1, sessions := setA id s st.sessions },
    [.sessionCreated id fileName ip])

/-- FileTransferManager::updateSessionStatus. -/
def updateSessionStatus (st : MgrState) (id : Nat) (status : TransferStatus) :
    MgrState × List MgrEvent :=
  match lookupA id st.sessions with
  | some s =>
      ({ st with sessions := setA id { s with status := status } st.sessions },
        [.statusChanged id status])
  | none => (st, [])

/-- FileTransferManager::updateSessionProgress. -/
def updateSessionProgress (st : MgrState) (id : Nat) (progress : Int) :
    MgrState × List MgrEvent :=
  match lookupA id st.sessions with
  | some s =>
      ({ st with sessions := setA id { s with progress := progress } st.sessions },
        [.progressChanged id progress])
  | none => (st, [])

/-- Handler of Sender::transferAccepted. -/
def onSenderTransferAccepted (st : MgrState) (senderId : Nat) : MgrState × List MgrEvent :=
  match lookupA senderId st.senderToSession with
  | some sessionId => updateSessionStatus st sessionId .IN_PROGRESS
  | none => (st, [])

/-- Handler of Sender::transferRefused (its deferred sender teardown is a
timer callback and is not part of the transition itself). -/
def onSenderTransferRefused (st : MgrState) (senderId : Nat) : MgrState × List MgrEvent :=
  match lookupA senderId st.senderToSession with
  | some sessionId => updateSessionStatus st sessionId .CANCELLED
  | none => (st, [])

/-- Handler of Sender::progressUpdated. -/
def onSenderProgressUpdated (st : MgrState) (senderId : Nat) (progress : Int) :
    MgrState × List MgrEvent :=
  match lookupA senderId st.senderToSession with
  | some sessionId => updateSessionProgress st sessionId progress
  | none => (st, [])

/-- Handler of Sender::transferFinished. -/
def onSenderTransferFinished (st : MgrState) (senderId : Nat) : MgrState × List MgrEvent :=
  match lookupA senderId st.senderToSession with
  | some sessionId =>
      if (lookupA sessionId st.sessions).isSome then
        updateSessionStatus st sessionId .FINISHED
      else (st, [])
  | none => (st, [])

/-- Handler of Sender::transferError: ERROR only when the session is not
already FINISHED or CANCELLED. -/
def onSenderTransferError (st : MgrState) (senderId : Nat) : MgrState × List MgrEvent :=
  match lookupA senderId st.senderToSession with
  | some sessionId =>
      match lookupA sessionId st.sessions with
      | some s =>
          if s.status ≠ .FINISHED ∧ s.status ≠ .CANCELLED then
            updateSessionStatus st sessionId .ERROR
          else (st, [])
      | none => (st, [])
  | none => (st, [])

/-- Immediately observable effect of Sender::sendFile: when the source file
does not exist the method returns before creating a socket (no signal, no
connection); otherwise it proceeds to connectToHost. -/
def sendFileStart (fileExists : Bool) (ip : List Char) (port : Nat) : List MgrEvent :=
  if fileExists then [.connectAttempt ip port] else []

/-- One iteration of the nested loops of sendFilesToUsers: create the
session named fileName plus at-recipient suffix, register the Sender (here
identified with its session id), then call Sender::sendFile. -/
def sendToOne (st : MgrState) (path : List Char) (fileExists : Bool) (u : LANDropUserM) :
    MgrState × List MgrEvent :=
  let sessionName := baseName path ++ (" @".toList ++ u.ipAddress)
  let r := createTransferSession st sessionName u.ipAddress
  let st2 : MgrState :=
    { r.2.1 with senderToSession := setA r.1 r.1 r.2.1.senderToSession }
  (st2, r.2.2 ++ sendFileStart fileExists u.ipAddress u.transferPort)

/-- FileTransferManager::sendFilesToUsers over paths paired with whether the
source file exists on disk. -/
def sendFilesToUsers (st : MgrState) (files : List (List Char × Bool))
    (recipients : List LANDropUserM) : MgrState × List MgrEvent :=
  files.foldl
    (fun acc f =>
      recipients.foldl
        (fun acc2 u =>
          let r := sendToOne acc2.1 f.1 f.2 u
          (r.1, acc2.2 ++ r.2))
        acc)
    (st, [])

/-- Handler of Receiver::fileTransferRequested: stash the offer in the batch
maps, (re)start the 200 ms batch timer, and create a WAITING session. -/
def onReceiverFileTransferRequested (st : MgrState) (fileName sizeField : List Char)
    (sock : Nat) : MgrState × List MgrEvent :=
  let st1 : MgrState :=
    { st with
        pendingBatchFiles := setA fileName (toLongLongChars sizeField) st.pendingBatchFiles,
        pendingBatchSockets := setA fileName sock st.pendingBatchSockets,
        batchTimerActive := true }
  let r := createTransferSession st1 fileName "Incoming".toList
  let st3 : MgrState :=
    { r.2.1 with receivedFileToSession := setA fileName r.1 r.2.1.receivedFileToSession }
  let r2 := updateSessionStatus st3 r.1 .WAITING
  (r2.1, r.2.2 ++ r2.2)

/-- Expiry of the single-shot batch timer: emit one batchTransferRequested
with the accumulated maps, then clear them. -/
def onBatchTimeout (st : MgrState) : MgrState × List MgrEvent :=
  ({ st with pendingBatchFiles := [], pendingBatchSockets := [],
             batchTimerActive := false },
    [.batchRequested st.pendingBatchFiles st.pendingBatchSockets])

/-- Recognizer for batch-offer events. -/
def isBatchEvent : MgrEvent → Bool
  | .batchRequested _ _ => true
  | _ => false

/-! ### BroadcastDiscoveryService
(src/landrop-plus/services/broadcastdiscoveryservice.cpp)

Discovery datagrams are pipe-separated strings.  The JSON shared-file
payload (field 5) is carried opaquely: the handlers only parse it, never
branch on it before the self-message check, so it does not affect any
claim.  The senderIP passed to the handlers is the already-cleaned address
computed in handleDiscoveryMessage. -/

/-- Peer record, the fields of LANDropUser that discovery maintains. -/
structure Peer where
  ipAddress : List Char
  hostname : List Char
  transferPort : Nat
  sharedRaw : List Char
  deriving DecidableEq, Repr

/-- Discovery state: the peer table and the lastSeenTimes map (milliseconds
since epoch, as QDateTime::currentMSecsSinceEpoch). -/
structure DiscoState where
  discoveredUsers : List Peer
  lastSeenTimes : List (List Char × Int)
  deriving DecidableEq, Repr

/-- Signals and datagram sends observable from the discovery handlers. -/
inductive DiscoEvent where
  | userListUpdated (users : List Peer)
  | responseSent (ip : List Char) (port : Nat)
  deriving DecidableEq, Repr

/-- Constant USER_TIMEOUT_MS of broadcastdiscoveryservice.h. -/
def USER_TIMEOUT_MS : Int := 15000

/-- BroadcastDiscoveryService::isSelfMessage. -/
def isSelfMessage (localIP localHostname senderIP hostname : List Char) : Bool :=
  decide (senderIP = localIP ∨ hostname = localHostname)

/-- Replace-first-match-or-append loop of updatePeerWithSharedFiles. -/
def replaceOrAppend : List Peer → Peer → List Peer
  | [], u => [u]
  | p :: rest, u =>
      if p.ipAddress = u.ipAddress ∨ p.hostname = u.hostname then u :: rest
      else p :: replaceOrAppend rest u

/-- BroadcastDiscoveryService::updatePeerWithSharedFiles. -/
def updatePeerWithSharedFiles (now : Int) (st : DiscoState) (user : Peer) :
    DiscoState × List DiscoEvent :=
  let users := replaceOrAppend st.discoveredUsers user
  ({ discoveredUsers := users,
     lastSeenTimes := setA user.ipAddress now st.lastSeenTimes },
    [.userListUpdated users])

/-- BroadcastDiscoveryService::handleDiscoveryRequest. -/
def handleDiscoveryRequest (now : Int) (localIP localHostname : List Char)
    (st : DiscoState) (message senderIP : List Char) : DiscoState × List DiscoEvent :=
  let parts := splitBar message
  if 4 ≤ parts.length then
    let senderDiscoveryPort := toUShortChars (parts.getD 1 [])
    let transferPort := toUShortChars (parts.getD 2 [])
    let hostname := parts.getD 3 []
    let sharedRaw := if 5 ≤ parts.length then parts.getD 4 [] else []
    if isSelfMessage localIP localHostname senderIP hostname then (st, [])
    else
      let user : Peer :=
        { ipAddress := senderIP, hostname := hostname,
          transferPort := transferPort, sharedRaw := sharedRaw }
      let r := updatePeerWithSharedFiles now st user
      (r.1, .responseSent senderIP senderDiscoveryPort :: r.2)
  else (st, [])

/-- BroadcastDiscoveryService::handleDiscoveryResponse. -/
def handleDiscoveryResponse (now : Int) (localIP localHostname : List Char)
    (st : DiscoState) (message senderIP : List Char) : DiscoState × List DiscoEvent :=
  let parts := splitBar message
  if 4 ≤ parts.length then
    let transferPort := toUShortChars (parts.getD 2 [])
    let hostname := parts.getD 3 []
    let sharedRaw := if 5 ≤ parts.length then parts.getD 4 [] else []
    if isSelfMessage localIP localHostname senderIP hostname then (st, [])
    else
      let user : Peer :=
        { ipAddress := senderIP, hostname := hostname,
          transferPort := transferPort, sharedRaw := sharedRaw }
      updatePeerWithSharedFiles now st user
  else (st, [])

/-- Removal condition of one cleanup iteration, phrased against a given
lastSeenTimes map: a self-entry, or a peer not seen for more than
USER_TIMEOUT_MS (a missing lastSeen entry counts as 0, as QMap::value). -/
def cleanupCond (now : Int) (localIP localHostname : List Char)
    (lastSeen : List (List Char × Int)) (p : Peer) : Bool :=
  decide (p.ipAddress = localIP ∨ p.hostname = localHostname) ||
  decide (USER_TIMEOUT_MS < now - ((lookupA p.ipAddress lastSeen).getD 0))

/-- Backward index loop of cleanupExpiredUsers: the list is scanned from the
last element to the first, removing self-entries and expired peers together
with their lastSeenTimes entry, and recording whether anything was removed. -/
def cleanupRec (now : Int) (localIP localHostname : List Char) :
    List Peer → List (List Char × Int) →
    List Peer × List (List Char × Int) × Bool
  | [], ls => ([], ls, false)
  | p :: rest, ls =>
      let r := cleanupRec now localIP localHostname rest ls
      if p.ipAddress = localIP ∨ p.hostname = localHostname then
        (r.1, removeA p.ipAddress r.2.1, true)
      else if USER_TIMEOUT_MS < now - ((lookupA p.ipAddress r.2.1).getD 0) then
        (r.1, removeA p.ipAddress r.2.1, true)
      else (p :: r.1, r.2.1, r.2.2)

/-- BroadcastDiscoveryService::cleanupExpiredUsers: run the loop, then emit
userListUpdated only when at least one entry was removed. -/
def cleanupExpiredUsers (now : Int) (localIP localHostname : List Char)
    (st : DiscoState) : DiscoState × List DiscoEvent :=
  let r := cleanupRec now localIP localHostname st.discoveredUsers st.lastSeenTimes
  ({ discoveredUsers := r.1, lastSeenTimes := r.2.1 },
    if r.2.2 then [.userListUpdated r.1] else [])

/-! ### Lemmas about the Sender streaming loop -/

theorem senderLoopFuel_mem (size bufp : Nat) :
    ∀ (fuel sent : Nat), sent ≤ size →
      ∀ pr ∈ senderLoopFuel size bufp fuel sent,
        sent < pr.1 ∧ pr.1 ≤ size ∧ pr.2 = pr.1 * 100 / size := by
  intro fuel
  induction fuel with
  | zero => intro sent _ pr hpr; simp [senderLoopFuel] at hpr
  | succ fuel ih =>
      intro sent hs pr hpr
      by_cases h : sent < size
      · simp only [senderLoopFuel, h, if_true] at hpr
        rcases List.mem_cons.mp hpr with heq | hmem
        · subst heq
          refine ⟨by omega, by omega, rfl⟩
        · have hs' : sent + min (bufp + 1) (size - sent) ≤ size := by omega
          have := ih (sent + min (bufp + 1) (size - sent)) hs' pr hmem
          exact ⟨by omega, this.2.1, this.2.2⟩
      · simp [senderLoopFuel, h] at hpr

theorem senderLoopFuel_chain (size bufp : Nat) :
    ∀ (fuel sent x : Nat), x ≤ sent →
      List.Chain (· ≤ ·) (x * 100 / size)
        ((senderLoopFuel size bufp fuel sent).map Prod.snd) := by
  intro fuel
  induction fuel with
  | zero => intro sent x _; simp [senderLoopFuel]
  | succ fuel ih =>
      intro sent x hx
      by_cases h : sent < size
      · simp only [senderLoopFuel, h, if_true, List.map_cons]
        refine List.Chain.cons ?_ ?_
        · exact Nat.div_le_div_right (Nat.mul_le_mul_right 100 (by omega))
        · exact ih (sent + min (bufp + 1) (size - sent)) _ le_rfl
      · simp [senderLoopFuel, h]

theorem senderLoopFuel_chain' (size bufp fuel sent : Nat) :
    List.Chain' (· ≤ ·) ((senderLoopFuel size bufp fuel sent).map Prod.snd) := by
  cases fuel with
  | zero => simp [senderLoopFuel]
  | succ fuel =>
      by_cases h : sent < size
      · simp only [senderLoopFuel, h, if_true, List.map_cons]
        show List.Chain (· ≤ ·) _ _
        exact senderLoopFuel_chain size bufp fuel _ _ le_rfl
      · simp [senderLoopFuel, h]

theorem senderLoopFuel_complete (size bufp : Nat) (hsize : 0 < size) :
    ∀ (fuel sent : Nat), sent < size → size - sent ≤ fuel →
      100 ∈ (senderLoopFuel size bufp fuel sent).map Prod.snd := by
  intro fuel
  induction fuel with
  | zero => intro sent h1 h2; omega
  | succ fuel ih =>
      intro sent h1 h2
      simp only [senderLoopFuel, h1, if_true, List.map_cons]
      by_cases h3 : sent + min (bufp + 1) (size - sent) < size
      · exact List.mem_cons_of_mem _ (ih _ h3 (by omega))
      · have heq : sent + min (bufp + 1) (size - sent) = size := by omega
        rw [heq, Nat.mul_div_cancel_left 100 hsize]
        exact List.mem_cons_self _ _

theorem senderFinalFuel_eq (size bufp : Nat) :
    ∀ (fuel sent : Nat), sent ≤ size → size - sent ≤ fuel →
      senderFinalFuel size bufp fuel sent = size := by
  intro fuel
  induction fuel with
  | zero => intro sent h1 h2; simp [senderFinalFuel]; omega
  | succ fuel ih =>
      intro sent h1 h2
      by_cases h : sent < size
      · simp only [senderFinalFuel, h, if_true]
        exact ih _ (by omega) (by omega)
      · simp only [senderFinalFuel, h, if_false]
        omega

/-! ### Claim theorems -/

/-- C3 (amended). For an accepted upload of a non-empty file with a positive
buffer size: the emitted progress sequence is monotonic non-decreasing; each
emitted value equals floor(bytesSent * 100 / fileSize) at its emission point,
and an emitted value of 100 means the whole file had been read; progress
reaches 100 iff the file is larger than one chunk (a file that fits in the
first chunk finishes without emitting any progress value, which is the
correction to the claim); and bytesSent equals fileSize at the moment
transferFinished is emitted. -/
theorem sender_progress_properties (fileSize bufferSize : Nat)
    (hsize : 0 < fileSize) (hbuf : 0 < bufferSize) :
    List.Chain' (· ≤ ·) (senderProgresses fileSize bufferSize) ∧
    (∀ pr ∈ senderTrace fileSize bufferSize,
        pr.2 = pr.1 * 100 / fileSize ∧ pr.1 ≤ fileSize ∧
        (pr.2 = 100 → pr.1 = fileSize)) ∧
    (100 ∈ senderProgresses fileSize bufferSize ↔ bufferSize < fileSize) ∧
    senderFinalBytes fileSize bufferSize = fileSize := by
  have hsent0 : min bufferSize fileSize ≤ fileSize := by omega
  refine ⟨?_, ?_, ?_, ?_⟩
  · exact senderLoopFuel_chain' fileSize (bufferSize - 1) fileSize (min bufferSize fileSize)
  · intro pr hpr
    have h := senderLoopFuel_mem fileSize (bufferSize - 1) fileSize
      (min bufferSize fileSize) hsent0 pr hpr
    refine ⟨h.2.2, h.2.1, ?_⟩
    intro h100
    have hge : 100 ≤ pr.1 * 100 / fileSize := by rw [← h.2.2, h100]
    have := (Nat.le_div_iff_mul_le hsize).mp hge
    omega
  · constructor
    · intro h100
      obtain ⟨pr, hpr, hsnd⟩ := List.mem_map.mp h100
      have h := senderLoopFuel_mem fileSize (bufferSize - 1) fileSize
        (min bufferSize fileSize) hsent0 pr hpr
      have hge : 100 ≤ pr.1 * 100 / fileSize := by rw [← h.2.2, hsnd]
      have := (Nat.le_div_iff_mul_le hsize).mp hge
      omega
    · intro hlt
      exact senderLoopFuel_complete fileSize (bufferSize - 1) hsize fileSize
        (min bufferSize fileSize) (by omega) (by omega)
  · exact senderFinalFuel_eq fileSize (bufferSize - 1) fileSize
      (min bufferSize fileSize) hsent0 (by omega)

/-- Witness for C3's amended theorem: a 10-byte file with a 3-byte buffer. -/
theorem sender_progress_properties_w :
    0 < 10 ∧ 0 < 3 ∧ senderFinalBytes 10 3 = 10 :=
  ⟨by decide, by decide,
    (sender_progress_properties 10 3 (by decide) (by decide)).2.2.2⟩

/-- C3 counterexample. A 1-byte file with the default 65536-byte buffer is
transmitted entirely (bytesSent equals fileSize at transferFinished), yet the
progress sequence is empty, so progress never reaches 100: the claimed
equivalence between reaching 100 and full transmission fails. -/
theorem sender_single_chunk_no_progress :
    ¬ ((100 ∈ senderProgresses 1 65536) ↔ senderFinalBytes 1 65536 = 1) := by
  decide

/-- C4. On disconnect of a socket that completed the metadata phase, the
Receiver emits CANCELLED when totalReceived is strictly below the declared
size and otherwise fileReceivedSuccessfully followed by FINISHED, and the
per-socket pending entry is removed (its owned file handle is closed and
freed with it). -/
theorem receiver_disconnect_outcome (st : RecvState) (sock : Nat) (e : PendingFile)
    (h : lookupA sock st.pendingFiles = some e) :
    ((onDisconnected sock st).2 =
      if e.totalReceived < e.size then [RecvEvent.statusUpd e.name .CANCELLED]
      else [RecvEvent.receivedOk (baseName e.name), RecvEvent.statusUpd e.name .FINISHED]) ∧
    lookupA sock (onDisconnected sock st).1.pendingFiles = none := by
  unfold onDisconnected
  rw [h]
  exact ⟨rfl, lookupA_removeA_self sock st.pendingFiles⟩

/-- Witness for C4: a socket that received 2 of 5 declared bytes. -/
theorem receiver_disconnect_outcome_w :
    (onDisconnected 1 ⟨[(1, ⟨"a".toList, 5, 2, none⟩)], []⟩).2 =
      [RecvEvent.statusUpd ("a".toList) .CANCELLED] := by
  have h := receiver_disconnect_outcome ⟨[(1, ⟨"a".toList, 5, 2, none⟩)], []⟩ 1
    ⟨"a".toList, 5, 2, none⟩ (by decide)
  rw [h.1]
  decide

/-- C2 (amended). While no file handle is attached to an inbound socket in
the payload phase, no destination file is written: the landrop-plus Receiver
returns before reading, leaving its state (including the socket buffer)
untouched, and the original landrop Receiver consumes and discards the bytes
without writing any file. The original claim's stronger statement that the
bytes are dropped rather than written later is refuted by the
counterexample below. -/
theorem no_handle_no_write (st : RecvState) (sock : Nat) (e : PendingFile)
    (h1 : lookupA sock st.pendingFiles = some e) (h2 : e.file = none) :
    onReadyRead sock st = (st, [], false) ∧
    (∀ (le : LPendingFile) (buf : List Char), le.file = none →
      (landropPayloadStep le buf).1.file = none) := by
  constructor
  · simp [onReadyRead, h1, h2]
  · intro le buf hle
    simp [landropPayloadStep, hle]

/-- Witness for C2's amended theorem. -/
theorem no_handle_no_write_w :
    onReadyRead 1 ⟨[(1, ⟨"f".toList, 4, 0, none⟩)], [(1, "xy".toList)]⟩ =
      (⟨[(1, ⟨"f".toList, 4, 0, none⟩)], [(1, "xy".toList)]⟩, [], false) :=
  (no_handle_no_write ⟨[(1, ⟨"f".toList, 4, 0, none⟩)], [(1, "xy".toList)]⟩ 1
    ⟨"f".toList, 4, 0, none⟩ (by decide) rfl).1

/-- C2 counterexample. In the landrop-plus Receiver, bytes that arrive
before the transfer is accepted stay in the socket's read buffer (the
handler returns before readAll): after a handle is attached, the next
delivery makes readAll return the pre-accept bytes together with the new
ones, and both are written to the destination file. Here bytes "ab" arrive
before acceptance and end up at the start of the written file, so they were
retained, not dropped. -/
theorem pre_accept_bytes_persisted :
    (onReadyRead 1 (dataArrived 1 ("ab".toList)
        ⟨[(1, ⟨"f".toList, 4, 0, none⟩)], [(1, [])]⟩)).1 =
      ⟨[(1, ⟨"f".toList, 4, 0, none⟩)], [(1, "ab".toList)]⟩ ∧
    lookupA 1 (onReadyRead 1 (dataArrived 1 ("cd".toList)
        (setFile 1 ⟨[(1, ⟨"f".toList, 4, 0, none⟩)], [(1, "ab".toList)]⟩))).1.pendingFiles =
      some ⟨"f".toList, 4, 4, some ("abcd".toList)⟩ := by
  decide

/-- C1 (amended). For a (file, recipient) pair whose source file does not
exist, Sender::sendFile is a silent no-op: no connection attempt and no
sender signal, so the session stays WAITING with progress 0. But
sendFilesToUsers has already created that session and emitted
transferSessionCreated before the existence check, so the session table does
contain a session for the pair, which is the correction to the claim. -/
theorem send_missing_file_silent (st : MgrState) (path : List Char) (u : LANDropUserM) :
    (sendFilesToUsers st [(path, false)] [u]).2 =
      [MgrEvent.sessionCreated st.nextSessionId
        (baseName path ++ (" @".toList ++ u.ipAddress)) u.ipAddress] ∧
    lookupA st.nextSessionId (sendFilesToUsers st [(path, false)] [u]).1.sessions =
      some { id := st.nextSessionId,
             fileName := baseName path ++ (" @".toList ++ u.ipAddress),
             recipientIP := u.ipAddress, status := .WAITING, progress := 0 } := by
  unfold sendFilesToUsers
  simp [sendToOne, createTransferSession, sendFileStart, lookupA_setA_self]

/-- C1 counterexample. A call with one non-existent source file and one
recipient: after the call the session table does contain a session for the
pair and a transferSessionCreated event was emitted for it, contradicting
the claim that no session at all is created. -/
theorem send_missing_file_creates_session :
    lookupA 1 (sendFilesToUsers initMgrState [("missing.txt".toList, false)]
        [⟨"10.0.0.7".toList, 4500⟩]).1.sessions =
      some { id := 1, fileName := "missing.txt @10.0.0.7".toList,
             recipientIP := "10.0.0.7".toList, status := .WAITING, progress := 0 } ∧
    MgrEvent.sessionCreated 1 ("missing.txt @10.0.0.7".toList) ("10.0.0.7".toList) ∈
      (sendFilesToUsers initMgrState [("missing.txt".toList, false)]
        [⟨"10.0.0.7".toList, 4500⟩]).2 := by
  decide

/-- C5. For an outbound session reachable through the senderToSession map,
the Sender signal handlers act as: accepted sets IN_PROGRESS, refused sets
CANCELLED, progressUpdated stores the reported progress (status untouched),
finished sets FINISHED, and transferError sets ERROR exactly when the
current status is neither FINISHED nor CANCELLED, leaving a FINISHED or
CANCELLED status in place otherwise. -/
theorem sender_event_session_transitions (st : MgrState) (senderId sessionId : Nat)
    (s : TransferSession)
    (hmap : lookupA senderId st.senderToSession = some sessionId)
    (hsess : lookupA sessionId st.sessions = some s) :
    lookupA sessionId (onSenderTransferAccepted st senderId).1.sessions =
      some { s with status := .IN_PROGRESS } ∧
    lookupA sessionId (onSenderTransferRefused st senderId).1.sessions =
      some { s with status := .CANCELLED } ∧
    (∀ p : Int, lookupA sessionId (onSenderProgressUpdated st senderId p).1.sessions =
      some { s with progress := p }) ∧
    lookupA sessionId (onSenderTransferFinished st senderId).1.sessions =
      some { s with status := .FINISHED } ∧
    lookupA sessionId (onSenderTransferError st senderId).1.sessions =
      some { s with status :=
        if s.status = .FINISHED ∨ s.status = .CANCELLED then s.status else .ERROR } := by
  refine ⟨?_, ?_, ?_, ?_, ?_⟩
  · simp [onSenderTransferAccepted, updateSessionStatus, hmap, hsess, lookupA_setA_self]
  · simp [onSenderTransferRefused, updateSessionStatus, hmap, hsess, lookupA_setA_self]
  · intro p
    simp [onSenderProgressUpdated, updateSessionProgress, hmap, hsess, lookupA_setA_self]
  · simp [onSenderTransferFinished, updateSessionStatus, hmap, hsess, lookupA_setA_self]
  · by_cases hterm : s.status = .FINISHED ∨ s.status = .CANCELLED
    · have hcond : ¬ (s.status ≠ .FINISHED ∧ s.status ≠ .CANCELLED) := by tauto
      simp [onSenderTransferError, hmap, hsess, hcond, if_pos hterm]
    · have hcond : s.status ≠ .FINISHED ∧ s.status ≠ .CANCELLED := by tauto
      simp [onSenderTransferError, updateSessionStatus, hmap, hsess, hcond,
        if_neg hterm, lookupA_setA_self]

/-- Witness for C5: one WAITING session with id 1 driven by sender 7. -/
theorem sender_event_session_transitions_w :
    lookupA 1 (onSenderTransferAccepted
        ⟨[(1, ⟨1, "a".toList, "ip".toList, .WAITING, 0⟩)], 2, [(7, 1)], [], [], [], false⟩
        7).1.sessions =
      some ⟨1, "a".toList, "ip".toList, .IN_PROGRESS, 0⟩ :=
  (sender_event_session_transitions
    ⟨[(1, ⟨1, "a".toList, "ip".toList, .WAITING, 0⟩)], 2, [(7, 1)], [], [], [], false⟩
    7 1 ⟨1, "a".toList, "ip".toList, .WAITING, 0⟩ (by decide) (by decide)).1

/-- C9. Two inbound offers for distinct file names arriving while the batch
timer window is open (no timeout between them), followed by the single
timeout of the restarted timer: exactly one batchTransferRequested event is
emitted over the whole trace, it carries both files with their sockets, and
both pending batch maps are empty immediately after the flush. -/
theorem batch_two_files_one_offer (st : MgrState) (f1 f2 z1 z2 : List Char)
    (k1 k2 : Nat)
    (hempty1 : st.pendingBatchFiles = []) (hempty2 : st.pendingBatchSockets = [])
    (hne : f1 ≠ f2) :
    let r1 := onReceiverFileTransferRequested st f1 z1 k1
    let r2 := onReceiverFileTransferRequested r1.1 f2 z2 k2
    let r3 := onBatchTimeout r2.1
    (r1.2 ++ r2.2 ++ r3.2).countP isBatchEvent = 1 ∧
    r3.2 = [MgrEvent.batchRequested r2.1.pendingBatchFiles r2.1.pendingBatchSockets] ∧
    lookupA f1 r2.1.pendingBatchFiles = some (toLongLongChars z1) ∧
    lookupA f2 r2.1.pendingBatchFiles = some (toLongLongChars z2) ∧
    lookupA f1 r2.1.pendingBatchSockets = some k1 ∧
    lookupA f2 r2.1.pendingBatchSockets = some k2 ∧
    r3.1.pendingBatchFiles = [] ∧ r3.1.pendingBatchSockets = [] := by
  have hne' : f2 ≠ f1 := Ne.symm hne
  simp [onReceiverFileTransferRequested, createTransferSession, updateSessionStatus,
    onBatchTimeout, isBatchEvent, hempty1, hempty2, lookupA_setA_self,
    lookupA_setA_other, hne, hne', List.countP_cons, List.countP_append, setA, lookupA]

/-- Witness for C9: files a and b offered back to back from a fresh manager. -/
theorem batch_two_files_one_offer_w :
    lookupA ("a".toList)
      (onReceiverFileTransferRequested
        (onReceiverFileTransferRequested initMgrState ("a".toList) ("5".toList) 1).1
        ("b".toList) ("6".toList) 2).1.pendingBatchFiles =
      some (toLongLongChars ("5".toList)) :=
  (batch_two_files_one_offer initMgrState ("a".toList) ("b".toList)
    ("5".toList) ("6".toList) 1 2 rfl rfl (by decide)).2.2.1

/-- C6. A discovery datagram whose sender IP equals the local IP or whose
hostname field (field index 3) equals the local hostname never creates or
updates a peer-table entry: both the request handler and the response
handler leave the discovery state unchanged and emit nothing. -/
theorem self_message_never_updates_table (now : Int)
    (localIP localHostname : List Char) (st : DiscoState) (message senderIP : List Char)
    (h : senderIP = localIP ∨ (splitBar message).getD 3 [] = localHostname) :
    handleDiscoveryRequest now localIP localHostname st message senderIP = (st, []) ∧
    handleDiscoveryResponse now localIP localHostname st message senderIP = (st, []) := by
  have hself :
      isSelfMessage localIP localHostname senderIP ((splitBar message).getD 3 []) = true := by
    unfold isSelfMessage
    exact decide_eq_true h
  by_cases hlen : 4 ≤ (splitBar message).length
  · constructor
    · simp only [handleDiscoveryRequest]
      rw [if_pos hlen, if_pos hself]
    · simp only [handleDiscoveryResponse]
      rw [if_pos hlen, if_pos hself]
  · constructor
    · simp only [handleDiscoveryRequest]
      rw [if_neg hlen]
    · simp only [handleDiscoveryResponse]
      rw [if_neg hlen]

/-- Witness for C6: a well-formed request datagram carrying the local
hostname, arriving from a non-local address. -/
theorem self_message_never_updates_table_w :
    handleDiscoveryRequest 0 ("9.9.9.9".toList) ("myhost".toList) ⟨[], []⟩
      ("LANDROP_DISCOVERY_V1|1|2|myhost".toList) ("1.2.3.4".toList) = (⟨[], []⟩, []) :=
  (self_message_never_updates_table 0 ("9.9.9.9".toList) ("myhost".toList) ⟨[], []⟩
    ("LANDROP_DISCOVERY_V1|1|2|myhost".toList) ("1.2.3.4".toList)
    (Or.inr (by decide))).1

theorem cleanupRec_lastSeen_lookup (now : Int) (lip lhost : List Char) :
    ∀ (users : List Peer) (ls : List (List Char × Int)) (ip : List Char),
      (∀ p ∈ users, p.ipAddress ≠ ip) →
      lookupA ip (cleanupRec now lip lhost users ls).2.1 = lookupA ip ls := by
  intro users
  induction users with
  | nil => intro ls ip _; rfl
  | cons p rest ih =>
      intro ls ip hne
      have hp : ip ≠ p.ipAddress := Ne.symm (hne p (List.mem_cons_self p rest))
      have hrest : ∀ q ∈ rest, q.ipAddress ≠ ip :=
        fun q hq => hne q (List.mem_cons_of_mem p hq)
      simp only [cleanupRec]
      split_ifs with hA hB
      · rw [lookupA_removeA_other ip p.ipAddress _ hp]
        exact ih ls ip hrest
      · rw [lookupA_removeA_other ip p.ipAddress _ hp]
        exact ih ls ip hrest
      · exact ih ls ip hrest

theorem cleanupRec_spec (now : Int) (lip lhost : List Char) :
    ∀ (users : List Peer) (ls : List (List Char × Int)),
      (users.map Peer.ipAddress).Nodup →
      (cleanupRec now lip lhost users ls).1 =
        users.filter (fun p => !cleanupCond now lip lhost ls p) ∧
      (cleanupRec now lip lhost users ls).2.2 =
        users.any (cleanupCond now lip lhost ls) := by
  intro users
  induction users with
  | nil => intro ls _; exact ⟨rfl, rfl⟩
  | cons p rest ih =>
      intro ls hnodup
      obtain ⟨hnotin, hnodup'⟩ := List.nodup_cons.mp hnodup
      have hlook : lookupA p.ipAddress (cleanupRec now lip lhost rest ls).2.1 =
          lookupA p.ipAddress ls := by
        apply cleanupRec_lastSeen_lookup
        intro q hq heq
        exact hnotin (List.mem_map.mpr ⟨q, hq, heq⟩)
      obtain ⟨ih1, ih2⟩ := ih ls hnodup'
      simp only [cleanupRec]
      by_cases h1 : p.ipAddress = lip ∨ p.hostname = lhost
      · have hcond : cleanupCond now lip lhost ls p = true := by
          unfold cleanupCond
          simp [h1]
        simp [h1, ih1, ih2, hcond, List.filter_cons, List.any_cons]
      · by_cases h2 : USER_TIMEOUT_MS < now - ((lookupA p.ipAddress ls).getD 0)
        · have hcond : cleanupCond now lip lhost ls p = true := by
            unfold cleanupCond
            simp [h1, h2]
          simp [h1, hlook, h2, ih1, ih2, hcond, List.filter_cons, List.any_cons]
        · have hcond : cleanupCond now lip lhost ls p = false := by
            unfold cleanupCond
            simp [h1, h2]
          simp [h1, hlook, h2, ih1, ih2, hcond, List.filter_cons, List.any_cons]

/-- C7. On a cleanup tick over a table with pairwise distinct peer IPs:
every peer that is a self-entry or whose time since lastSeen exceeds
USER_TIMEOUT_MS is removed, every surviving entry comes from the table and
satisfied neither removal condition, and the userListUpdated event is
emitted iff at least one entry was removed. -/
theorem cleanup_tick_spec (now : Int) (localIP localHostname : List Char)
    (st : DiscoState)
    (hnodup : (st.discoveredUsers.map Peer.ipAddress).Nodup) :
    (∀ p ∈ st.discoveredUsers,
        cleanupCond now localIP localHostname st.lastSeenTimes p = true →
        p ∉ (cleanupExpiredUsers now localIP localHostname st).1.discoveredUsers) ∧
    (∀ p ∈ (cleanupExpiredUsers now localIP localHostname st).1.discoveredUsers,
        p ∈ st.discoveredUsers ∧
        cleanupCond now localIP localHostname st.lastSeenTimes p = false) ∧
    ((cleanupExpiredUsers now localIP localHostname st).2 ≠ [] ↔
      ∃ p ∈ st.discoveredUsers,
        cleanupCond now localIP localHostname st.lastSeenTimes p = true) := by
  obtain ⟨h1, h2⟩ :=
    cleanupRec_spec now localIP localHostname st.discoveredUsers st.lastSeenTimes hnodup
  refine ⟨?_, ?_, ?_⟩
  · intro p hp hc hmem
    have hmem' : p ∈ (cleanupRec now localIP localHostname
        st.discoveredUsers st.lastSeenTimes).1 := hmem
    rw [h1] at hmem'
    have := (List.mem_filter.mp hmem').2
    simp [hc] at this
  · intro p hp
    have hp' : p ∈ (cleanupRec now localIP localHostname
        st.discoveredUsers st.lastSeenTimes).1 := hp
    rw [h1] at hp'
    obtain ⟨hmem, hcond⟩ := List.mem_filter.mp hp'
    exact ⟨hmem, by simpa using hcond⟩
  · show (if (cleanupRec now localIP localHostname
        st.discoveredUsers st.lastSeenTimes).2.2 = true then
          [DiscoEvent.userListUpdated (cleanupRec now localIP localHostname
            st.discoveredUsers st.lastSeenTimes).1]
        else []) ≠ [] ↔ _
    rw [h2]
    cases hb : st.discoveredUsers.any (cleanupCond now localIP localHostname st.lastSeenTimes) with
    | false =>
        constructor
        · intro h
          simp at h
        · rintro ⟨p, hp, hc⟩
          have : st.discoveredUsers.any
              (cleanupCond now localIP localHostname st.lastSeenTimes) = true :=
            List.any_eq_true.mpr ⟨p, hp, hc⟩
          rw [hb] at this
          exact absurd this (by simp)
    | true =>
        constructor
        · intro _
          exact List.any_eq_true.mp hb
        · intro _
          simp

/-- Witness for C7: a single peer last seen at time 0, cleaned at 20000 ms. -/
theorem cleanup_tick_spec_w :
    (cleanupExpiredUsers 20000 ("9.9.9.9".toList) ("local".toList)
        ⟨[⟨"1.1.1.1".toList, "h1".toList, 1, []⟩], [("1.1.1.1".toList, 0)]⟩).2 ≠ [] :=
  (cleanup_tick_spec 20000 ("9.9.9.9".toList) ("local".toList)
      ⟨[⟨"1.1.1.1".toList, "h1".toList, 1, []⟩], [("1.1.1.1".toList, 0)]⟩
      (by decide)).2.2.mpr
    ⟨⟨"1.1.1.1".toList, "h1".toList, 1, []⟩, by decide, by decide⟩

/-- Malformed metadata as enumerated by the claim: empty line, no separator,
fewer than two fields, or (for a non-download line) an empty file name or a
negative declared size. -/
def malformedMetaLine (rawLine : List Char) : Prop :=
  trimAscii rawLine = [] ∨
  hasBar (trimAscii rawLine) = false ∨
  (splitBar (trimAscii rawLine)).length < 2 ∨
  (startsWith dlTag (trimAscii rawLine) = false ∧
    ((splitBar (trimAscii rawLine)).getD 0 [] = [] ∨
      toLongLongChars ((splitBar (trimAscii rawLine)).getD 1 []) < 0))

instance (rawLine : List Char) : Decidable (malformedMetaLine rawLine) := by
  unfold malformedMetaLine
  infer_instance

theorem handleMetadataLine_malformed (l : List Char) (h : malformedMetaLine l) :
    handleMetadataLine l = .disconnect := by
  rcases h with h1 | h2 | h3 | ⟨hdl, h4⟩
  · simp only [handleMetadataLine]
    rw [if_pos (Or.inl h1)]
  · simp only [handleMetadataLine]
    rw [if_pos (Or.inr h2)]
  · have h2 : hasBar (trimAscii l) = false := by
      cases hbc : hasBar (trimAscii l) with
      | false => rfl
      | true => exact absurd ((hasBar_iff_two_parts (trimAscii l)).mp hbc) (by omega)
    simp only [handleMetadataLine]
    rw [if_pos (Or.inr h2)]
  · by_cases hfirst : trimAscii l = [] ∨ hasBar (trimAscii l) = false
    · simp only [handleMetadataLine]
      rw [if_pos hfirst]
    · simp only [handleMetadataLine]
      rw [if_neg hfirst]
      rw [if_neg (show ¬ startsWith dlTag (trimAscii l) = true by simp [hdl])]
      by_cases hlen2 : (splitBar (trimAscii l)).length < 2
      · rw [if_pos hlen2]
      · rw [if_neg hlen2, if_pos h4]

/-- C8. A newly accepted socket whose buffered metadata line is malformed
(empty after trimming, separator-free, fewer than two fields, empty file
name, or negative declared size) is disconnected immediately; no pending
entry is created (the pendingFiles map is unchanged) and no signal is
emitted, so no session is ever created for it, and the handler is a total
function — never fatal to the process. -/
theorem malformed_metadata_disconnect (st : RecvState) (sock : Nat)
    (hnew : lookupA sock st.pendingFiles = none)
    (hbad : malformedMetaLine (readLineSplit ((lookupA sock st.buffers).getD [])).1) :
    (onReadyRead sock st).1.pendingFiles = st.pendingFiles ∧
    (onReadyRead sock st).2.1 = [] ∧
    (onReadyRead sock st).2.2 = true := by
  have hd := handleMetadataLine_malformed _ hbad
  simp only [onReadyRead, hnew, hd]
  exact ⟨trivial, trivial, trivial⟩

/-- Witness for C8: a separator-free line on a fresh socket. -/
theorem malformed_metadata_disconnect_w :
    (onReadyRead 1 ⟨[], [(1, "abc".toList)]⟩).2.2 = true :=
  (malformed_metadata_disconnect ⟨[], [(1, "abc".toList)]⟩ 1 (by decide)
    (by decide)).2.2

/-- C10. For a metadata line that splits into at least two fields and is not
a download request: the line is rejected (disconnect) iff the file name is
empty or the parsed size is negative; an accepted line yields exactly the
first field as name and the toLongLong value of the second as size, which is
then non-negative (so size 0 is accepted); a field whose conversion fails
parses to 0; and a pending entry created with totalReceived 0 and size at
most 0 already satisfies totalReceived >= size, so the very first disconnect
reports it received successfully and FINISHED regardless of payload. -/
theorem metadata_accepts_zero_size (rawLine : List Char)
    (hlen : 2 ≤ (splitBar (trimAscii rawLine)).length)
    (hdl : startsWith dlTag (trimAscii rawLine) = false) :
    (handleMetadataLine rawLine = .disconnect ↔
      ((splitBar (trimAscii rawLine)).getD 0 [] = [] ∨
        toLongLongChars ((splitBar (trimAscii rawLine)).getD 1 []) < 0)) ∧
    (∀ name size, handleMetadataLine rawLine = .accept name size →
      name = (splitBar (trimAscii rawLine)).getD 0 [] ∧
      size = toLongLongChars ((splitBar (trimAscii rawLine)).getD 1 []) ∧
      0 ≤ size) ∧
    (∀ f, parseLL f = none → toLongLongChars f = 0) ∧
    (∀ (name : List Char) (size : Int), size ≤ 0 →
      disconnectEvents ⟨name, size, 0, none⟩ =
        [RecvEvent.receivedOk (baseName name), RecvEvent.statusUpd name .FINISHED]) := by
  have hbar : hasBar (trimAscii rawLine) = true := (hasBar_iff_two_parts _).mpr hlen
  have hne : trimAscii rawLine ≠ [] := by
    intro he
    rw [he] at hlen
    simp [splitBar] at hlen
  have hfirst : ¬ (trimAscii rawLine = [] ∨ hasBar (trimAscii rawLine) = false) := by
    simp [hne, hbar]
  have hML : handleMetadataLine rawLine =
      if (splitBar (trimAscii rawLine)).getD 0 [] = [] ∨
         toLongLongChars ((splitBar (trimAscii rawLine)).getD 1 []) < 0 then
        MetaAction.disconnect
      else
        MetaAction.accept ((splitBar (trimAscii rawLine)).getD 0 [])
          (toLongLongChars ((splitBar (trimAscii rawLine)).getD 1 [])) := by
    simp only [handleMetadataLine]
    rw [if_neg hfirst]
    rw [if_neg (show ¬ startsWith dlTag (trimAscii rawLine) = true by simp [hdl])]
    rw [if_neg (show ¬ (splitBar (trimAscii rawLine)).length < 2 by omega)]
  refine ⟨?_, ?_, ?_, ?_⟩
  · rw [hML]
    constructor
    · intro hdis
      by_contra hc
      rw [if_neg hc] at hdis
      exact absurd hdis (by simp)
    · intro hc
      rw [if_pos hc]
  · intro name size hacc
    rw [hML] at hacc
    by_cases hc : (splitBar (trimAscii rawLine)).getD 0 [] = [] ∨
        toLongLongChars ((splitBar (trimAscii rawLine)).getD 1 []) < 0
    · rw [if_pos hc] at hacc
      exact absurd hacc (by simp)
    · rw [if_neg hc] at hacc
      push_neg at hc
      injection hacc with hn hs
      subst hn
      subst hs
      exact ⟨rfl, rfl, hc.2⟩
  · intro f hf
    simp [toLongLongChars, hf]
  · intro name size hsz
    simp only [disconnectEvents]
    rw [if_neg (show ¬ ((0 : Int) < size) by omega)]

/-- Witness for C10: the line describing file f with non-numeric size field. -/
theorem metadata_accepts_zero_size_w :
    handleMetadataLine ("f|abc".toList) ≠ .disconnect :=
  fun hdis =>
    absurd ((metadata_accepts_zero_size ("f|abc".toList) (by decide)
      (by decide)).1.mp hdis) (by decide)

end LanDrop
